import Mathlib

/-!
Verification of the DiagnoMedAI diagnostic core against its specification.

The Python modules under `backend/` are shallowly embedded: pydantic models
become structures, float fields become real numbers (idealised real
arithmetic stands in for IEEE doubles), methods become functions, and the
external collaborators (the LLM client, the CSV knowledge base) become
explicit parameters or outcome types.  Timestamps and logging are omitted:
no verified property mentions them.
-/

set_option maxRecDepth 8000

namespace DiagnoMed

open Classical

/-! ## Data model (`backend/models/diagnosis.py`, `backend/models/test_order.py`) -/

/-- `Disease` (diagnosis.py).  Only the fields the verified operations read
are kept; the optional metadata (icd10 code, category, severity, ...) is
never consulted by the embedded functions. -/
structure Disease where
  disease_id : String
  name : String
deriving Repr, DecidableEq

/-- `Hypothesis` (diagnosis.py): a diagnostic hypothesis with probability.
pydantic constrains `probability` to [0,1]; the constraint is not needed by
the proved claims so it is not carried in the structure. -/
structure Hypothesis where
  disease : Disease
  probability : ℝ
  supporting_evidence : List String := []
  contradicting_evidence : List String := []
  rule_out_criteria : List String := []

/-- `Test` (test_order.py).  pydantic declares `cost_usd`, `sensitivity`,
`specificity` with `ge=0` (the latter two also `le=1`); theorems that need
those bounds take them as hypotheses. -/
structure Test where
  test_id : String
  name : String
  category : String := "Blood"
  cost_usd : ℝ := 50
  turnaround_hours : ℝ := 24
  sensitivity : ℝ := 0.85
  specificity : ℝ := 0.85
  diseases_detected : List String := []

/-- `TestRequest` (test_order.py). -/
structure TestRequest where
  test : Test
  rationale : String
  expected_information_gain : ℝ := 0
  urgency : String := "routine"

/-- `DiagnosticState` (diagnosis.py).  The `priors` and `test_results`
dicts are association lists preserving insertion order, as Python dicts do;
the two timestamp fields are omitted. -/
structure DiagnosticState where
  patient_id : String
  symptoms : List String := []
  symptom_ids : List String := []
  priors : List (String × ℝ) := []
  hypotheses : List Hypothesis := []
  pending_tests : List String := []
  completed_tests : List String := []
  test_results : List (String × String) := []
  budget_remaining : ℝ := 5000
  total_cost : ℝ := 0
  confidence : ℝ := 0
  iteration : ℕ := 0

/-- Python `max(iterable, key=f)` returns the first element attaining the
maximum of `f`: a later element replaces the running best only when its key
is strictly greater.  Shared by `top_hypothesis` and by
`select_next_test`, whose stable descending sort followed by taking the
head also yields the first maximal element. -/
noncomputable def pickMax {α : Type} (f : α → ℝ) (a : α) (l : List α) : α :=
  l.foldl (fun acc x => if f acc < f x then x else acc) a

/-- `DiagnosticState.top_hypothesis` (diagnosis.py): `None` when the list is
empty, else `max(self.hypotheses, key=lambda h: h.probability)`. -/
noncomputable def topHypothesis (s : DiagnosticState) : Option Hypothesis :=
  match s.hypotheses with
  | [] => none
  | h :: t => some (pickMax (fun x => x.probability) h t)

/-- `DiagnosticState.update_confidence` (diagnosis.py):

    if self.top_hypothesis:
        self.confidence = self.top_hypothesis.probability

A `Hypothesis` object is always truthy, so the branch runs exactly when the
hypothesis list is nonempty; when it is empty the confidence field keeps
its previous value (there is no `else` assigning 0). -/
noncomputable def updateConfidence (s : DiagnosticState) : DiagnosticState :=
  match topHypothesis s with
  | some h => { s with confidence := h.probability }
  | none => s

/-! ## Stewardship Gate (`backend/agents/dr_stewardship.py`) -/

/-- `DrStewardship.MIN_INFO_GAIN`. -/
def MIN_INFO_GAIN : ℝ := 0.05

/-- `DrStewardship.MAX_COST_PER_BIT`. -/
def MAX_COST_PER_BIT : ℝ := 500

/-- `DrStewardship.HIGH_CONFIDENCE_THRESHOLD`. -/
def HIGH_CONFIDENCE_THRESHOLD : ℝ := 0.75

/-- `DrStewardship._tests_redundant`: flags only exact id duplicates. -/
def testsRedundant (testId1 testId2 : String) : Bool :=
  testId1 == testId2

/-- `DrStewardship.evaluate_test`: the five ordered veto rules, first match
wins, approve otherwise.  Rationale strings keep the source wording with
the interpolated numbers elided (string formatting of floats is outside the
embedding).  Rule 5 in the source loops over `state.completed_tests` and
vetoes at the first `_tests_redundant` (i.e. equal) id, which is a
membership test. -/
noncomputable def evaluateTest (tr : TestRequest) (s : DiagnosticState) :
    Bool × String :=
  let test := tr.test
  let info_gain := tr.expected_information_gain
  -- Rule 1: Budget check
  if test.cost_usd > s.budget_remaining then
    (false, "Test exceeds remaining budget")
  -- Rule 2: Minimum info gain
  else if info_gain < MIN_INFO_GAIN then
    (false, "Expected info gain below minimum threshold")
  else
    -- Rule 3: Cost/benefit ratio
    let cost_per_bit := test.cost_usd / max info_gain 0.001
    if cost_per_bit > MAX_COST_PER_BIT ∧ s.confidence < HIGH_CONFIDENCE_THRESHOLD then
      (false, "Cost per bit exceeds threshold")
    -- Rule 4: High confidence - be conservative
    else if HIGH_CONFIDENCE_THRESHOLD ≤ s.confidence ∧
        (info_gain < 0.2 ∨ cost_per_bit > 200) then
      (false, "Confidence already high; test may be unnecessary")
    -- Rule 5: Avoid duplicate coverage
    else if s.completed_tests.any (fun c => testsRedundant test.test_id c) then
      (false, "Similar test already performed")
    else
      (true, "Approved")

/-! Rule predicates transcribed from the CLAIMS/spec wording, to compare the
implementation against (`cost_per_bit = cost / max(gain, 0.001)`). -/

/-- Spec rule 1: veto if cost > budget_remaining. -/
def specRuleBudget (tr : TestRequest) (s : DiagnosticState) : Prop :=
  tr.test.cost_usd > s.budget_remaining

/-- Spec rule 2: veto if information gain < 0.05 bits. -/
def specRuleMinGain (tr : TestRequest) : Prop :=
  tr.expected_information_gain < 0.05

/-- Spec cost-per-bit quantity: cost / max(gain, 0.001). -/
noncomputable def specCostPerBit (tr : TestRequest) : ℝ :=
  tr.test.cost_usd / max tr.expected_information_gain 0.001

/-- Spec rule 3: veto if cost_per_bit > 500 and confidence < 0.75. -/
def specRuleCostPerBit (tr : TestRequest) (s : DiagnosticState) : Prop :=
  specCostPerBit tr > 500 ∧ s.confidence < 0.75

/-- Spec rule 4: veto if confidence >= 0.75 and (gain < 0.2 or
cost_per_bit > 200). -/
def specRuleHighConfidence (tr : TestRequest) (s : DiagnosticState) : Prop :=
  0.75 ≤ s.confidence ∧ (tr.expected_information_gain < 0.2 ∨ specCostPerBit tr > 200)

/-- Spec rule 5: veto if the test id is already in completed_tests. -/
def specRuleRedundant (tr : TestRequest) (s : DiagnosticState) : Prop :=
  tr.test.test_id ∈ s.completed_tests

/-! ## Test chooser (`backend/agents/dr_test_chooser.py`) -/

/-- `DrTestChooser.compute_entropy`: starts at 0 (also the early return for
an empty list) and runs `entropy -= p * log2(p)` over the hypotheses with
probability > 0. -/
noncomputable def computeEntropy (hyps : List Hypothesis) : ℝ :=
  hyps.foldl
    (fun e h =>
      if h.probability > 0 then e - h.probability * Real.logb 2 h.probability else e)
    0

/-- `DrTestChooser.estimate_posterior`: likelihood × prior, with the
likelihood read off sensitivity/specificity according to whether the test
detects the hypothesis's disease and the simulated result sign. -/
noncomputable def estimatePosterior (hyp : Hypothesis) (test : Test)
    (result_positive : Bool) : ℝ :=
  let prior := hyp.probability
  let likelihood :=
    if hyp.disease.disease_id ∈ test.diseases_detected then
      if result_positive then test.sensitivity else 1 - test.sensitivity
    else
      if result_positive then 1 - test.specificity else test.specificity
  likelihood * prior

/-- `DrTestChooser.compute_expected_entropy_reduction`. -/
noncomputable def computeExpectedEntropyReduction (test : Test)
    (hyps : List Hypothesis) : ℝ :=
  let current_entropy := computeEntropy hyps
  if current_entropy = 0 then 0
  else
    let p_positive := hyps.foldl
      (fun p h =>
        if h.disease.disease_id ∈ test.diseases_detected then
          p + h.probability * test.sensitivity
        else
          p + h.probability * (1 - test.specificity))
      0
    let p_negative := 1 - p_positive
    let posteriors_positive := hyps.map (fun h =>
      ({ disease := h.disease, probability := estimatePosterior h test true } : Hypothesis))
    let posteriors_negative := hyps.map (fun h =>
      ({ disease := h.disease, probability := estimatePosterior h test false } : Hypothesis))
    let sum_pos := (posteriors_positive.map (fun h => h.probability)).sum
    let sum_neg := (posteriors_negative.map (fun h => h.probability)).sum
    let normalized_positive :=
      if sum_pos > 0 then
        posteriors_positive.map (fun h => { h with probability := h.probability / sum_pos })
      else posteriors_positive
    let normalized_negative :=
      if sum_neg > 0 then
        posteriors_negative.map (fun h => { h with probability := h.probability / sum_neg })
      else posteriors_negative
    let h_given_positive := computeEntropy normalized_positive
    let h_given_negative := computeEntropy normalized_negative
    let expected_entropy := p_positive * h_given_positive + p_negative * h_given_negative
    current_entropy - expected_entropy

/-- `cost_limit = max_cost or state.budget_remaining`: Python `or` falls
through both on `None` and on a 0.0 cap. -/
noncomputable def costLimit (maxCost : Option ℝ) (s : DiagnosticState) : ℝ :=
  match maxCost with
  | none => s.budget_remaining
  | some c => if c = 0 then s.budget_remaining else c

/-- The `available_tests` filter of `select_next_test`: catalog tests not
already completed and within the cost limit. -/
noncomputable def availableTests (catalog : List Test) (s : DiagnosticState)
    (limit : ℝ) : List Test :=
  catalog.filter (fun t =>
    decide (t.test_id ∉ s.completed_tests ∧ t.cost_usd ≤ limit))

/-- The per-test score of `select_next_test`:
`value = info_gain / max(test.cost_usd, 1.0)`. -/
noncomputable def testValue (hyps : List Hypothesis) (t : Test) : ℝ :=
  computeExpectedEntropyReduction t hyps / max t.cost_usd 1

/-- `DrTestChooser.select_next_test`.  The source scores every available
test, sorts the scored triples by value descending (Python's stable sort)
and takes the head; that head is the first value-maximal available test,
here `pickMax`.  The test catalog, loaded from `tests.csv`, is a
parameter. -/
noncomputable def selectNextTest (catalog : List Test) (s : DiagnosticState)
    (maxCost : Option ℝ) : Option TestRequest :=
  if s.hypotheses = [] then none
  else
    match availableTests catalog s (costLimit maxCost s) with
    | [] => none
    | t0 :: rest =>
      let best := pickMax (testValue s.hypotheses) t0 rest
      let best_gain := computeExpectedEntropyReduction best s.hypotheses
      some { test := best,
             rationale := "Test selected for maximum information gain",
             expected_information_gain := best_gain,
             urgency := "routine" }

/-! ## Hypothesis agent (`backend/agents/dr_hypothesis.py`) -/

/-- One entry of `SymptomDiseaseMapper.get_candidates`: the keys
`_fallback_ddx` reads (`disease_id`, `base_probability`,
`matching_symptoms`). -/
structure Candidate where
  disease_id : String
  base_probability : ℝ
  matching_symptoms : ℕ := 1

/-- The probability computation of one `_fallback_ddx` loop iteration at
enumeration index `i`: scale the base probability by the epidemiological
prior contribution `(1 + min(prior*1000, 1.0))` when present, then by the
genetic risk multiplier when present, cap at `0.9 - i * 0.1`, and floor the
constructed hypothesis's probability at 0.01. -/
noncomputable def fallbackStep (epiPriors geneticRisks : String → Option ℝ)
    (c : Candidate) (i : ℕ) : ℝ :=
  let p1 := match epiPriors c.disease_id with
    | some e => c.base_probability * (1 + min (e * 1000) 1)
    | none => c.base_probability
  let p2 := match geneticRisks c.disease_id with
    | some g => p1 * g
    | none => p1
  max (min p2 (0.9 - (i : ℝ) * 0.1)) 0.01

/-- The `for i, candidate in enumerate(candidates)` loop of
`_fallback_ddx`, with the running enumeration index made explicit: a
candidate contributes a hypothesis only when
`mapper.get_disease_model(disease_id)` finds its disease. -/
noncomputable def fallbackAux (diseaseModel : String → Option Disease)
    (epiPriors geneticRisks : String → Option ℝ) :
    ℕ → List Candidate → List Hypothesis
  | _, [] => []
  | i, c :: cs =>
    match diseaseModel c.disease_id with
    | some d =>
      { disease := d, probability := fallbackStep epiPriors geneticRisks c i,
        supporting_evidence := ["Matches symptoms"] }
        :: fallbackAux diseaseModel epiPriors geneticRisks (i + 1) cs
    | none => fallbackAux diseaseModel epiPriors geneticRisks (i + 1) cs

/-- `DrHypothesis._fallback_ddx`.  In the source the candidate list is
`self.mapper.get_candidates(symptoms, top_k=7)`, which returns at most 7
entries (`ranked[:top_k]`); the mapper's CSV-backed lookups are
parameters. -/
noncomputable def fallbackDdx (diseaseModel : String → Option Disease)
    (candidates : List Candidate) (epiPriors geneticRisks : String → Option ℝ) :
    List Hypothesis :=
  fallbackAux diseaseModel epiPriors geneticRisks 0 candidates

/-- One item of the JSON schema the collaborator is asked to return, with
the `item.get(..., default)` defaults of `_parse_response`. -/
structure DdxItem where
  disease_id : String := "UNKNOWN"
  disease_name : String := "Unknown Disease"
  probability : ℝ := 0.1
  supporting : List String := []
  contradicting : List String := []
  rule_out_tests : List String := []

/-- Outcome of one call to the text-generation collaborator, as the
embedding's stand-in for `await self.llm.generate(...)` followed by JSON
decoding inside `_parse_response`:
`failure` models an exception raised by the call (caught by the agent's
`except` and routed to its fallback), `success none` a returned response
text on which `json.loads` raises `JSONDecodeError` (caught inside
`_parse_response` itself), and `success (some items)` a well-formed decoded
response. -/
inductive LlmCall where
  | failure
  | success (decoded : Option (List DdxItem))

/-- `DrHypothesis._parse_response` after fence stripping, as a function of
the JSON decode outcome: on `JSONDecodeError` it logs and returns the empty
list (it does not raise, so the caller's `except` never fires); otherwise
it builds hypotheses and sorts them by probability descending (Python's
stable sort). -/
noncomputable def parseResponse (decoded : Option (List DdxItem)) : List Hypothesis :=
  match decoded with
  | none => []
  | some data =>
    let hypotheses := data.map (fun item =>
      ({ disease := { disease_id := item.disease_id, name := item.disease_name },
         probability := item.probability,
         supporting_evidence := item.supporting,
         contradicting_evidence := item.contradicting,
         rule_out_criteria := item.rule_out_tests } : Hypothesis))
    hypotheses.mergeSort (fun a b => decide (b.probability ≤ a.probability))

/-- `DrHypothesis.generate_initial_ddx`: `try` the collaborator and
`_parse_response`; only an exception (collaborator failure) reaches the
`except` that invokes `_fallback_ddx`. -/
noncomputable def generateInitialDdx (diseaseModel : String → Option Disease)
    (candidates : List Candidate) (epiPriors geneticRisks : String → Option ℝ)
    (outcome : LlmCall) : List Hypothesis :=
  match outcome with
  | .success decoded => parseResponse decoded
  | .failure => fallbackDdx diseaseModel candidates epiPriors geneticRisks

/-- `DrHypothesis.update_ddx`: same `try`/`except` shape; the `except`
returns `state.hypotheses` unchanged. -/
noncomputable def updateDdx (s : DiagnosticState) (outcome : LlmCall) :
    List Hypothesis :=
  match outcome with
  | .success decoded => parseResponse decoded
  | .failure => s.hypotheses

/-! ## Orchestrator (`backend/agents/orchestrator.py`) -/

/-- The diagnostic settings read by `should_continue`
(`backend/config.py`). -/
structure DiagnosticSettings where
  confidence_threshold : ℝ := 0.85
  max_iterations : ℕ := 10
  default_budget_usd : ℝ := 5000

/-- The two targets of the conditional edge out of the HYPOTHESIS node. -/
inductive Route where
  | testChooser
  | finalize
deriving DecidableEq, Repr

/-- `should_continue`: the ordered termination guards evaluated after each
HYPOTHESIS step. -/
noncomputable def shouldContinue (cfg : DiagnosticSettings)
    (ds : DiagnosticState) : Route :=
  if cfg.confidence_threshold ≤ ds.confidence then .finalize
  else if cfg.max_iterations ≤ ds.iteration then .finalize
  else if ds.budget_remaining ≤ 0 then .finalize
  else .testChooser

/-- `GraphState` (orchestrator.py), with its pydantic defaults. -/
structure GraphState where
  diagnostic_state : DiagnosticState
  current_test_request : Option TestRequest := none
  awaiting_test_result : Bool := false
  test_approved : Bool := false
  veto_reason : Option String := none
  diagnosis_complete : Bool := false
  max_iterations_reached : Bool := false

/-- `hypothesis_node`: the hypotheses produced by the collaborator call
(`generate_initial_ddx` or `update_ddx`) are a parameter; the node installs
them, recomputes confidence, and increments the iteration counter by
one. -/
noncomputable def hypothesisNode (gs : GraphState)
    (newHypotheses : List Hypothesis) : GraphState :=
  let ds := gs.diagnostic_state
  let ds1 := { ds with hypotheses := newHypotheses }
  let ds2 := updateConfidence ds1
  let ds3 := { ds2 with iteration := ds2.iteration + 1 }
  { diagnostic_state := ds3, awaiting_test_result := false, test_approved := false }

/-- `test_chooser_node`: no candidate means `diagnosis_complete`, else the
proposal is stored; the diagnostic state is not modified. -/
noncomputable def testChooserNode (catalog : List Test) (gs : GraphState) :
    GraphState :=
  let ds := gs.diagnostic_state
  match selectNextTest catalog ds none with
  | none =>
    { diagnostic_state := ds, current_test_request := none, diagnosis_complete := true }
  | some tq =>
    { diagnostic_state := ds, current_test_request := some tq,
      awaiting_test_result := false, test_approved := false }

/-- `stewardship_node`: runs the (pure) gate; on approval the node — not
the gate — deducts the cost, accrues it on `total_cost` and appends the
test id to `pending_tests`; on veto the diagnostic state is returned
untouched. -/
noncomputable def stewardshipNode (gs : GraphState) : GraphState :=
  let ds := gs.diagnostic_state
  match gs.current_test_request with
  | none =>
    { diagnostic_state := ds, test_approved := false, diagnosis_complete := true }
  | some tq =>
    let res := evaluateTest tq ds
    if res.1 then
      let ds1 := { ds with
        budget_remaining := ds.budget_remaining - tq.test.cost_usd,
        total_cost := ds.total_cost + tq.test.cost_usd,
        pending_tests := ds.pending_tests ++ [tq.test.test_id] }
      { diagnostic_state := ds1, current_test_request := some tq,
        awaiting_test_result := true, test_approved := true, veto_reason := none }
    else
      { diagnostic_state := ds, current_test_request := none,
        awaiting_test_result := false, test_approved := false,
        veto_reason := some res.2 }

/-- `finalize_node`: marks completion and leaves the diagnostic state
unchanged. -/
noncomputable def finalizeNode (gs : GraphState) : GraphState :=
  { diagnostic_state := gs.diagnostic_state, diagnosis_complete := true }

/-! ## Session service (`backend/services/diagnostic_loop.py`) -/

/-- `DiagnosticSession`, restricted to the fields `submit_test_result`
touches. -/
structure DiagSession where
  state : GraphState
  status : String := "initialized"

/-- `DiagnosticLoopService`: the `sessions` dict as an insertion-ordered
association list. -/
structure DiagnosticLoopService where
  sessions : List (String × DiagSession) := []

/-- Python dict assignment `d[k] = v`: replace the value when the key is
present, else append the binding. -/
def dictInsert (d : List (String × String)) (k v : String) :
    List (String × String) :=
  if d.any (fun p => p.1 == k) then
    d.map (fun p => if p.1 == k then (k, v) else p)
  else d ++ [(k, v)]

/-- `DiagnosticLoopService.submit_test_result`: unknown session ids raise
(`ValueError`, the only raise in the method); otherwise the result is
recorded, the test id is removed from `pending_tests` only when present
(`list.remove` behind a membership guard), and the id is appended to
`completed_tests` unconditionally. -/
noncomputable def submitTestResult (svc : DiagnosticLoopService)
    (session_id test_id result : String) :
    Except String (DiagnosticLoopService × GraphState) :=
  match svc.sessions.lookup session_id with
  | none => .error ("Session " ++ session_id ++ " not found")
  | some session =>
    let ds := session.state.diagnostic_state
    let ds1 := { ds with
      test_results := dictInsert ds.test_results test_id result,
      pending_tests :=
        if test_id ∈ ds.pending_tests then ds.pending_tests.erase test_id
        else ds.pending_tests,
      completed_tests := ds.completed_tests ++ [test_id] }
    let newState : GraphState :=
      { diagnostic_state := ds1, awaiting_test_result := false, test_approved := false }
    let session1 := { session with state := newState, status := "running" }
    .ok
      ({ sessions := svc.sessions.map
          (fun p => if p.1 == session_id then (session_id, session1) else p) },
        newState)

/-! ## Theorems -/

/-- `pickMax` returns an element of the candidate pool. -/
theorem pickMax_mem {α : Type} (f : α → ℝ) (a : α) (l : List α) :
    pickMax f a l ∈ a :: l := by
  induction l generalizing a with
  | nil => simp [pickMax]
  | cons x xs ih =>
    have hstep : pickMax f a (x :: xs) = pickMax f (if f a < f x then x else a) xs := rfl
    rw [hstep]
    rcases List.mem_cons.mp (ih (if f a < f x then x else a)) with h1 | h1
    · rw [h1]
      split
      · simp
      · simp
    · simp [List.mem_cons, h1]

/-- `pickMax` attains the maximum of `f` over the candidate pool. -/
theorem pickMax_ge {α : Type} (f : α → ℝ) (a : α) (l : List α) :
    ∀ y ∈ a :: l, f y ≤ f (pickMax f a l) := by
  induction l generalizing a with
  | nil =>
    intro y hy
    simp only [List.mem_singleton] at hy
    simp [pickMax, hy]
  | cons x xs ih =>
    intro y hy
    have hstep : pickMax f a (x :: xs) = pickMax f (if f a < f x then x else a) xs := rfl
    rw [hstep]
    have hfa : f a ≤ f (if f a < f x then x else a) := by
      by_cases h : f a < f x
      · rw [if_pos h]; exact le_of_lt h
      · rw [if_neg h]
    have hfx : f x ≤ f (if f a < f x then x else a) := by
      by_cases h : f a < f x
      · rw [if_pos h]
      · rw [if_neg h]; exact not_lt.mp h
    have hhead : f (if f a < f x then x else a) ≤
        f (pickMax f (if f a < f x then x else a) xs) :=
      ih _ _ (List.mem_cons_self _ _)
    rcases List.mem_cons.mp hy with rfl | hy1
    · exact le_trans hfa hhead
    · rcases List.mem_cons.mp hy1 with rfl | hy2
      · exact le_trans hfx hhead
      · exact ih _ _ (List.mem_cons_of_mem _ hy2)

/-- `update_confidence` only touches the confidence field. -/
theorem updateConfidence_fields (s : DiagnosticState) :
    (updateConfidence s).iteration = s.iteration ∧
    (updateConfidence s).budget_remaining = s.budget_remaining ∧
    (updateConfidence s).total_cost = s.total_cost ∧
    (updateConfidence s).hypotheses = s.hypotheses ∧
    (updateConfidence s).pending_tests = s.pending_tests ∧
    (updateConfidence s).completed_tests = s.completed_tests := by
  unfold updateConfidence
  split <;> simp

/-- C2: after a HYPOTHESIS pass the iteration counter has grown by exactly
one, and `should_continue` checks its guards in order — confidence at or
above the threshold finalizes, else reaching the iteration cap finalizes,
else an exhausted budget finalizes — so the TEST_CHOOSER route (the only
way a test is ever proposed) is taken exactly when all three guards are
silent. -/
theorem hypothesis_guards_spec (cfg : DiagnosticSettings) (gs : GraphState)
    (newHyps : List Hypothesis) (ds : DiagnosticState) :
    ((hypothesisNode gs newHyps).diagnostic_state.iteration =
      gs.diagnostic_state.iteration + 1)
    ∧ (cfg.confidence_threshold ≤ ds.confidence →
        shouldContinue cfg ds = Route.finalize)
    ∧ (ds.confidence < cfg.confidence_threshold →
        cfg.max_iterations ≤ ds.iteration →
        shouldContinue cfg ds = Route.finalize)
    ∧ (ds.confidence < cfg.confidence_threshold →
        ds.iteration < cfg.max_iterations → ds.budget_remaining ≤ 0 →
        shouldContinue cfg ds = Route.finalize)
    ∧ (shouldContinue cfg ds = Route.testChooser ↔
        ds.confidence < cfg.confidence_threshold ∧
        ds.iteration < cfg.max_iterations ∧ 0 < ds.budget_remaining) := by
  refine ⟨?_, ?_, ?_, ?_, ?_⟩
  · unfold hypothesisNode
    simp [(updateConfidence_fields _).1]
  · intro h
    unfold shouldContinue
    rw [if_pos h]
  · intro hc hi
    unfold shouldContinue
    rw [if_neg (not_le.mpr hc), if_pos hi]
  · intro hc hi hb
    unfold shouldContinue
    rw [if_neg (not_le.mpr hc), if_neg (not_le.mpr hi), if_pos hb]
  · unfold shouldContinue
    split_ifs with h1 h2 h3
    · constructor
      · intro hcontra
        exact absurd hcontra (by simp)
      · rintro ⟨hc, -, -⟩
        exact absurd h1 (not_le.mpr hc)
    · constructor
      · intro hcontra
        exact absurd hcontra (by simp)
      · rintro ⟨-, hi, -⟩
        exact absurd h2 (not_le.mpr hi)
    · constructor
      · intro hcontra
        exact absurd hcontra (by simp)
      · rintro ⟨-, -, hb⟩
        exact absurd h3 (not_le.mpr hb)
    · simp only [true_iff]
      exact ⟨not_le.mp h1, not_le.mp h2, not_le.mp h3⟩

/-- C2 witness: with the default settings (threshold 0.85) a state at
confidence 0.9 finalizes, via `hypothesis_guards_spec`. -/
theorem hypothesis_guards_spec_witness :
    shouldContinue {} { patient_id := "P1", confidence := 0.9 } = Route.finalize :=
  (hypothesis_guards_spec {} { diagnostic_state := { patient_id := "P0" } } []
    { patient_id := "P1", confidence := 0.9 }).2.1 (by norm_num)

/-- C5 counterexample: on a state whose hypothesis list is empty,
`update_confidence` leaves a prior confidence of 0.5 in place — the claim
that it resets confidence to 0 is false (the source's
`if self.top_hypothesis:` has no else branch). -/
theorem update_confidence_empty_counterexample :
    (updateConfidence
      { patient_id := "P1", hypotheses := [], confidence := 0.5 }).confidence = 0.5
    ∧ (0.5 : ℝ) ≠ 0 := by
  constructor
  · rfl
  · norm_num

/-- C5 amended: after a hypothesis update, `update_confidence` sets
confidence to exactly the probability of the top (maximum-probability)
hypothesis; when the hypothesis list is empty it leaves the whole state —
in particular the previous confidence — unchanged, rather than resetting
confidence to 0. -/
theorem update_confidence_spec (s : DiagnosticState) :
    (s.hypotheses = [] → updateConfidence s = s)
    ∧ (s.hypotheses ≠ [] → ∃ h : Hypothesis,
        topHypothesis s = some h ∧ h ∈ s.hypotheses ∧
        (∀ x ∈ s.hypotheses, x.probability ≤ h.probability) ∧
        (updateConfidence s).confidence = h.probability) := by
  constructor
  · intro hs
    unfold updateConfidence topHypothesis
    rw [hs]
  · intro hs
    obtain ⟨h0, t, ht⟩ := List.exists_cons_of_ne_nil hs
    refine ⟨pickMax (fun x => x.probability) h0 t, ?_, ?_, ?_, ?_⟩
    · unfold topHypothesis
      rw [ht]
    · rw [ht]
      exact pickMax_mem _ h0 t
    · intro x hx
      rw [ht] at hx
      exact pickMax_ge (fun x => x.probability) h0 t x hx
    · unfold updateConfidence topHypothesis
      rw [ht]

/-- C5 witness: a state with a single hypothesis at probability 0.6 gets
confidence 0.6, via `update_confidence_spec`. -/
theorem update_confidence_spec_witness :
    (updateConfidence
      { patient_id := "P2",
        hypotheses := [{ disease := { disease_id := "D1", name := "Dengue" },
                         probability := 0.6 }] }).confidence = 0.6 := by
  obtain ⟨h, htop, -, -, hconf⟩ :=
    (update_confidence_spec
      { patient_id := "P2",
        hypotheses := [{ disease := { disease_id := "D1", name := "Dengue" },
                         probability := 0.6 }] }).2 (by simp)
  have : h = { disease := { disease_id := "D1", name := "Dengue" },
               probability := 0.6 } := by
    have : topHypothesis
        { patient_id := "P2",
          hypotheses := [{ disease := { disease_id := "D1", name := "Dengue" },
                           probability := 0.6 }] } =
        some { disease := { disease_id := "D1", name := "Dengue" },
               probability := 0.6 } := rfl
    rw [this] at htop
    exact (Option.some.injEq _ _).mp htop.symm
  rw [hconf, this]

/-- C4 counterexample: with a one-candidate knowledge base whose fallback
differential is nonempty, a JSON decode failure of the collaborator's
response (`LlmCall.success none`) makes `generate_initial_ddx` return the
empty differential instead of falling back — `_parse_response` catches the
`JSONDecodeError` itself and returns `[]`, so the agent's `except` that
would invoke `_fallback_ddx` never fires. -/
theorem generate_initial_decode_failure_counterexample :
    generateInitialDdx (fun s => some { disease_id := s, name := s })
      [{ disease_id := "D1", base_probability := 0.3 }]
      (fun _ => none) (fun _ => none) (LlmCall.success none) = []
    ∧ generateInitialDdx (fun s => some { disease_id := s, name := s })
      [{ disease_id := "D1", base_probability := 0.3 }]
      (fun _ => none) (fun _ => none) LlmCall.failure ≠ [] := by
  refine ⟨rfl, ?_⟩
  simp [generateInitialDdx, fallbackDdx, fallbackAux]

/-- C4 amended: a collaborator failure (an exception from the generate
call) does trigger the deterministic rule-based fallback and is not
surfaced to the caller; a JSON parse/decode failure of the response,
however, is absorbed inside `_parse_response`, which returns an empty list
that `generate_initial_ddx` passes through unchanged — the fallback is not
invoked and the returned differential is empty (still no fatal error). -/
theorem generate_initial_failure_paths (dm : String → Option Disease)
    (cands : List Candidate) (ep gr : String → Option ℝ) :
    generateInitialDdx dm cands ep gr LlmCall.failure = fallbackDdx dm cands ep gr
    ∧ generateInitialDdx dm cands ep gr (LlmCall.success none) = []
    ∧ ∀ items, generateInitialDdx dm cands ep gr (LlmCall.success (some items)) =
        parseResponse (some items) :=
  ⟨rfl, rfl, fun _ => rfl⟩

/-- C6 counterexample: on a state carrying one hypothesis, an unparseable
collaborator response (`LlmCall.success none`) makes `update_ddx` return
the empty list — it silently empties the differential instead of keeping
the previous hypothesis set. -/
theorem update_ddx_decode_failure_counterexample :
    updateDdx
      { patient_id := "P1",
        hypotheses := [{ disease := { disease_id := "D1", name := "Dengue" },
                         probability := 0.6 }] }
      (LlmCall.success none) = []
    ∧ ({ patient_id := "P1",
         hypotheses := [{ disease := { disease_id := "D1", name := "Dengue" },
                          probability := 0.6 }] } :
        DiagnosticState).hypotheses ≠ [] := by
  refine ⟨rfl, ?_⟩
  simp

/-- C6 amended: on a collaborator error (an exception from the generate
call) `update_ddx` returns the previous hypothesis set unchanged; on an
unparseable (non-JSON) response it instead returns the empty list produced
by `_parse_response`, replacing the existing differential. -/
theorem update_ddx_failure_paths (s : DiagnosticState) :
    updateDdx s LlmCall.failure = s.hypotheses
    ∧ updateDdx s (LlmCall.success none) = []
    ∧ ∀ items, updateDdx s (LlmCall.success (some items)) =
        parseResponse (some items) :=
  ⟨rfl, rfl, fun _ => rfl⟩

/-- C7: `compute_entropy` is `-Σ p·log2(p)` over exactly the hypotheses
with positive probability; it is 0 on the empty list, 0 on a single
hypothesis of probability 1, and exactly 1 bit on two hypotheses of
probability 0.5 each. -/
theorem compute_entropy_spec :
    computeEntropy [] = 0
    ∧ (∀ hyps : List Hypothesis,
        computeEntropy hyps =
          -(((hyps.filter (fun h => decide (h.probability > 0))).map
              (fun h => h.probability * Real.logb 2 h.probability)).sum))
    ∧ (∀ h : Hypothesis, h.probability = 1 → computeEntropy [h] = 0)
    ∧ (∀ h1 h2 : Hypothesis, h1.probability = 0.5 → h2.probability = 0.5 →
        computeEntropy [h1, h2] = 1) := by
  have key : ∀ (l : List Hypothesis) (e : ℝ),
      l.foldl
        (fun e h =>
          if h.probability > 0 then e - h.probability * Real.logb 2 h.probability else e)
        e =
      e - ((l.filter (fun h => decide (h.probability > 0))).map
            (fun h => h.probability * Real.logb 2 h.probability)).sum := by
    intro l
    induction l with
    | nil => intro e; simp
    | cons h t ih =>
      intro e
      by_cases hp : h.probability > 0
      · simp only [List.foldl_cons, List.filter_cons, hp, decide_True, if_pos hp,
          if_true, List.map_cons, List.sum_cons, ih]
        ring
      · simp only [List.foldl_cons, List.filter_cons, hp, decide_False, if_neg hp,
          Bool.false_eq_true, if_false, ih]
  have hhalf : Real.logb 2 (0.5 : ℝ) = -1 := by
    have : (0.5 : ℝ) = 2⁻¹ := by norm_num
    rw [this, Real.logb_inv, Real.logb_self_eq_one (by norm_num)]
  refine ⟨rfl, ?_, ?_, ?_⟩
  · intro hyps
    unfold computeEntropy
    rw [key]
    ring
  · intro h hp
    unfold computeEntropy
    rw [key]
    simp [hp, Real.logb_one]
  · intro h1 h2 hp1 hp2
    unfold computeEntropy
    rw [key]
    have hpos : ((0.5 : ℝ) > 0) := by norm_num
    simp only [List.filter_cons, List.filter_nil, hp1, hp2, hpos, decide_True,
      if_true, List.map_cons, List.map_nil, List.sum_cons, List.sum_nil]
    rw [hhalf]
    norm_num

/-- C7 witness: concrete evaluation of the half/half case through
`compute_entropy_spec`. -/
theorem compute_entropy_spec_witness :
    computeEntropy
      [{ disease := { disease_id := "D1", name := "Dengue" }, probability := 0.5 },
       { disease := { disease_id := "D2", name := "Influenza" }, probability := 0.5 }] = 1 :=
  compute_entropy_spec.2.2.2
    { disease := { disease_id := "D1", name := "Dengue" }, probability := 0.5 }
    { disease := { disease_id := "D2", name := "Influenza" }, probability := 0.5 }
    rfl rfl

/-- Unfolding equation of `fallbackAux` when the disease lookup misses. -/
theorem fallbackAux_cons_none (dm : String → Option Disease)
    (ep gr : String → Option ℝ) (i : ℕ) (c : Candidate) (cs : List Candidate)
    (hdm : dm c.disease_id = none) :
    fallbackAux dm ep gr i (c :: cs) = fallbackAux dm ep gr (i + 1) cs := by
  simp only [fallbackAux, hdm]

/-- Unfolding equation of `fallbackAux` when the disease lookup hits. -/
theorem fallbackAux_cons_some (dm : String → Option Disease)
    (ep gr : String → Option ℝ) (i : ℕ) (c : Candidate) (cs : List Candidate)
    (d : Disease) (hdm : dm c.disease_id = some d) :
    fallbackAux dm ep gr i (c :: cs) =
      { disease := d, probability := fallbackStep ep gr c i,
        supporting_evidence := ["Matches symptoms"] }
        :: fallbackAux dm ep gr (i + 1) cs := by
  simp only [fallbackAux, hdm]

/-- The bounds of the `_fallback_ddx` loop, generalized over the running
enumeration index: provided the enumeration stays below index 9 (so that
the rank cap `0.9 - 0.1*i` stays above the 0.01 floor), every produced
hypothesis respects the cap of the candidate it came from — which is at
least as tight as the cap of its output rank — and the 0.01 floor. -/
theorem fallbackAux_bounds (dm : String → Option Disease)
    (ep gr : String → Option ℝ) :
    ∀ (cs : List Candidate) (i j : ℕ) (h : Hypothesis),
      i + cs.length ≤ 9 →
      (fallbackAux dm ep gr i cs).get? j = some h →
      h.probability ≤ 0.9 - ((i : ℝ) + (j : ℝ)) * 0.1 ∧ 0.01 ≤ h.probability := by
  intro cs
  induction cs with
  | nil =>
    intro i j h _ hget
    simp [fallbackAux] at hget
  | cons c cs ih =>
    intro i j h hi hget
    have hlen : (i + 1) + cs.length ≤ 9 := by
      simp only [List.length_cons] at hi
      omega
    rcases hdm : dm c.disease_id with _ | d
    · rw [fallbackAux_cons_none dm ep gr i c cs hdm] at hget
      have hb := ih (i + 1) j h hlen hget
      refine ⟨le_trans hb.1 ?_, hb.2⟩
      push_cast
      linarith
    · rw [fallbackAux_cons_some dm ep gr i c cs d hdm] at hget
      cases j with
      | zero =>
        rw [List.get?_cons_zero] at hget
        have hh : h.probability = fallbackStep ep gr c i := by
          have := (Option.some.injEq _ _).mp hget
          rw [← this]
        have hi8 : (i : ℝ) ≤ 8 := by
          have hn : i ≤ 8 := by
            simp only [List.length_cons] at hi
            omega
          exact_mod_cast hn
        have hcap : fallbackStep ep gr c i ≤ 0.9 - (i : ℝ) * 0.1 := by
          simp only [fallbackStep]
          apply max_le
          · exact min_le_right _ _
          · linarith
        have hfl : (0.01 : ℝ) ≤ fallbackStep ep gr c i := by
          simp only [fallbackStep]
          exact le_max_right _ _
        constructor
        · rw [hh]
          refine le_trans hcap ?_
          push_cast
          linarith
        · rw [hh]
          exact hfl
      | succ j =>
        rw [List.get?_cons_succ] at hget
        have hb := ih (i + 1) j h hlen hget
        refine ⟨le_of_le_of_eq hb.1 ?_, hb.2⟩
        push_cast
        ring

/-- C8 counterexample: the fallback probabilities are not non-increasing
by rank — the genetic risk multiplier is applied after ranking, so a
lower-ranked candidate can end with the larger probability (here 0.3 at
rank 0 and 0.75 at rank 1). -/
theorem fallback_ddx_not_monotone_counterexample :
    ¬ List.Chain' (fun a b : Hypothesis => b.probability ≤ a.probability)
      (fallbackDdx (fun s => some { disease_id := s, name := s })
        [{ disease_id := "D1", base_probability := 0.3 },
         { disease_id := "D2", base_probability := 0.25 }]
        (fun _ => none)
        (fun s => if s == "D2" then some 3 else none)) := by
  intro hchain
  have hlist : fallbackDdx (fun s => some { disease_id := s, name := s })
      [{ disease_id := "D1", base_probability := 0.3 },
       { disease_id := "D2", base_probability := 0.25 }]
      (fun _ => none)
      (fun s => if s == "D2" then some 3 else none) =
      [{ disease := { disease_id := "D1", name := "D1" }, probability := 0.3,
         supporting_evidence := ["Matches symptoms"] },
       { disease := { disease_id := "D2", name := "D2" }, probability := 0.75,
         supporting_evidence := ["Matches symptoms"] }] := by
    unfold fallbackDdx
    rw [fallbackAux_cons_some _ _ _ 0 _ _ _ rfl,
      fallbackAux_cons_some _ _ _ 1 _ _ _ rfl]
    have hne : ("D1" : String) ≠ "D2" := by decide
    unfold fallbackStep
    norm_num [min_def, max_def, fallbackAux, hne]
  rw [hlist] at hchain
  have h01 := (List.chain'_cons.mp hchain).1
  norm_num at h01

/-- C8 amended: for the candidate lists `_fallback_ddx` actually receives
(`get_candidates(..., top_k=7)` returns at most 7 entries), the hypothesis
at rank i has probability at most `0.9 - 0.1*i` and at least 0.01; the
probabilities however need not be non-increasing by rank, because the
prevalence and genetic multipliers are applied per disease after
ranking. -/
theorem fallback_ddx_bounds (dm : String → Option Disease)
    (cands : List Candidate) (ep gr : String → Option ℝ)
    (hlen : cands.length ≤ 7) :
    ∀ (j : ℕ) (h : Hypothesis),
      (fallbackDdx dm cands ep gr).get? j = some h →
      h.probability ≤ 0.9 - (j : ℝ) * 0.1 ∧ 0.01 ≤ h.probability := by
  intro j h hget
  have := fallbackAux_bounds dm ep gr cands 0 j h (by omega) hget
  simpa using this

/-- C8 witness: a single-candidate fallback yields one hypothesis at
probability 0.5, within the rank-0 cap and above the floor, via
`fallback_ddx_bounds`. -/
theorem fallback_ddx_bounds_witness :
    ∃ h : Hypothesis,
      (fallbackDdx (fun s => some { disease_id := s, name := s })
        [{ disease_id := "D5", base_probability := 0.5 }]
        (fun _ => none) (fun _ => none)).get? 0 = some h
      ∧ h.probability ≤ 0.9 - (0 : ℕ) * 0.1 ∧ 0.01 ≤ h.probability := by
  refine ⟨_, rfl, ?_⟩
  exact fallback_ddx_bounds (fun s => some { disease_id := s, name := s })
    [{ disease_id := "D5", base_probability := 0.5 }]
    (fun _ => none) (fun _ => none) (by norm_num) 0 _ rfl

/-- C3: `select_next_test` returns nothing when the hypothesis list is
empty or when no catalog test is both uncompleted and affordable; in every
other case it does return a `TestRequest`, and any returned request is for
an available test whose `value = gain / max(cost, 1.0)` is maximal over
all available tests, with the request carrying that test's expected
information gain. -/
theorem select_next_test_spec (catalog : List Test) (s : DiagnosticState)
    (mc : Option ℝ) :
    (s.hypotheses = [] → selectNextTest catalog s mc = none)
    ∧ (availableTests catalog s (costLimit mc s) = [] →
        selectNextTest catalog s mc = none)
    ∧ (s.hypotheses ≠ [] → availableTests catalog s (costLimit mc s) ≠ [] →
        ∃ tr, selectNextTest catalog s mc = some tr)
    ∧ (∀ tr, selectNextTest catalog s mc = some tr →
        tr.test ∈ availableTests catalog s (costLimit mc s)
        ∧ tr.expected_information_gain =
            computeExpectedEntropyReduction tr.test s.hypotheses
        ∧ ∀ t ∈ availableTests catalog s (costLimit mc s),
            testValue s.hypotheses t ≤ testValue s.hypotheses tr.test) := by
  refine ⟨?_, ?_, ?_, ?_⟩
  · intro hs
    unfold selectNextTest
    rw [if_pos hs]
  · intro ha
    unfold selectNextTest
    split_ifs with hs
    · rfl
    · rw [ha]
  · intro hs ha
    unfold selectNextTest
    rw [if_neg hs]
    rcases hav : availableTests catalog s (costLimit mc s) with _ | ⟨t0, rest⟩
    · exact absurd hav ha
    · exact ⟨_, rfl⟩
  · intro tr htr
    unfold selectNextTest at htr
    split_ifs at htr with hs
    rcases hav : availableTests catalog s (costLimit mc s) with _ | ⟨t0, rest⟩
    · rw [hav] at htr
      exact absurd htr (by simp)
    · rw [hav] at htr
      simp only [Option.some.injEq] at htr
      subst htr
      refine ⟨?_, rfl, ?_⟩
      · exact pickMax_mem (testValue s.hypotheses) t0 rest
      · intro t ht
        exact pickMax_ge (testValue s.hypotheses) t0 rest t ht

/-- C3 witness: on a state with one hypothesis and a one-test catalog
(cost 50 against the default 5000 budget, nothing completed), the selector
does return a request, and that request's test is available and
value-maximal — both the existence conjunct and the argmax conjunct of
`select_next_test_spec` applied at a concrete input. -/
theorem select_next_test_spec_witness :
    ∃ tr, selectNextTest [{ test_id := "T1", name := "CBC", cost_usd := 50 }]
        { patient_id := "P4",
          hypotheses := [{ disease := { disease_id := "D1", name := "Dengue" },
                           probability := 0.6 }] } none = some tr
      ∧ tr.test ∈ availableTests
          [{ test_id := "T1", name := "CBC", cost_usd := 50 }]
          { patient_id := "P4",
            hypotheses := [{ disease := { disease_id := "D1", name := "Dengue" },
                             probability := 0.6 }] }
          (costLimit none
            { patient_id := "P4",
              hypotheses := [{ disease := { disease_id := "D1", name := "Dengue" },
                               probability := 0.6 }] })
      ∧ ∀ t ∈ availableTests
          [{ test_id := "T1", name := "CBC", cost_usd := 50 }]
          { patient_id := "P4",
            hypotheses := [{ disease := { disease_id := "D1", name := "Dengue" },
                             probability := 0.6 }] }
          (costLimit none
            { patient_id := "P4",
              hypotheses := [{ disease := { disease_id := "D1", name := "Dengue" },
                               probability := 0.6 }] }),
          testValue [{ disease := { disease_id := "D1", name := "Dengue" },
                       probability := 0.6 }] t
            ≤ testValue [{ disease := { disease_id := "D1", name := "Dengue" },
                           probability := 0.6 }] tr.test := by
  have hav : availableTests
      [{ test_id := "T1", name := "CBC", cost_usd := 50 }]
      { patient_id := "P4",
        hypotheses := [{ disease := { disease_id := "D1", name := "Dengue" },
                         probability := 0.6 }] }
      (costLimit none
        { patient_id := "P4",
          hypotheses := [{ disease := { disease_id := "D1", name := "Dengue" },
                           probability := 0.6 }] }) ≠ [] := by
    simp [availableTests, costLimit]
    norm_num
  obtain ⟨tr, htr⟩ := (select_next_test_spec
      [{ test_id := "T1", name := "CBC", cost_usd := 50 }]
      { patient_id := "P4",
        hypotheses := [{ disease := { disease_id := "D1", name := "Dengue" },
                         probability := 0.6 }] } none).2.2.1 (by simp) hav
  have hmax := (select_next_test_spec
      [{ test_id := "T1", name := "CBC", cost_usd := 50 }]
      { patient_id := "P4",
        hypotheses := [{ disease := { disease_id := "D1", name := "Dengue" },
                         probability := 0.6 }] } none).2.2.2 tr htr
  exact ⟨tr, htr, hmax.1, hmax.2.2⟩

/-- C9: the Stewardship gate `evaluate_test` is embedded as a pure
function, and the state mutation lives entirely in the caller: on approval
`stewardship_node` deducts exactly the test's cost from
`budget_remaining`, adds exactly that cost to `total_cost` and appends the
test id to `pending_tests` (all other diagnostic fields untouched), with
the post-deduction budget still nonnegative because approval implies the
budget rule did not fire; on veto (or without a proposal) the diagnostic
state is unchanged; with nonnegative cost (pydantic `ge=0`) the budget is
non-increasing and the total cost non-decreasing; the other workflow nodes
never touch budget or total cost. -/
theorem stewardship_node_budget (gs : GraphState) :
    (∀ tq, gs.current_test_request = some tq →
      (evaluateTest tq gs.diagnostic_state).1 = true →
        (stewardshipNode gs).diagnostic_state.budget_remaining
            = gs.diagnostic_state.budget_remaining - tq.test.cost_usd
        ∧ (stewardshipNode gs).diagnostic_state.total_cost
            = gs.diagnostic_state.total_cost + tq.test.cost_usd
        ∧ (stewardshipNode gs).diagnostic_state.pending_tests
            = gs.diagnostic_state.pending_tests ++ [tq.test.test_id]
        ∧ (stewardshipNode gs).diagnostic_state.hypotheses
            = gs.diagnostic_state.hypotheses
        ∧ (stewardshipNode gs).diagnostic_state.completed_tests
            = gs.diagnostic_state.completed_tests
        ∧ (stewardshipNode gs).diagnostic_state.test_results
            = gs.diagnostic_state.test_results
        ∧ 0 ≤ (stewardshipNode gs).diagnostic_state.budget_remaining)
    ∧ (∀ tq, gs.current_test_request = some tq →
        (evaluateTest tq gs.diagnostic_state).1 = false →
        (stewardshipNode gs).diagnostic_state = gs.diagnostic_state)
    ∧ (gs.current_test_request = none →
        (stewardshipNode gs).diagnostic_state = gs.diagnostic_state)
    ∧ (∀ tq, gs.current_test_request = some tq → 0 ≤ tq.test.cost_usd →
        (stewardshipNode gs).diagnostic_state.budget_remaining
            ≤ gs.diagnostic_state.budget_remaining
        ∧ gs.diagnostic_state.total_cost
            ≤ (stewardshipNode gs).diagnostic_state.total_cost)
    ∧ (∀ hyps, (hypothesisNode gs hyps).diagnostic_state.budget_remaining
            = gs.diagnostic_state.budget_remaining
        ∧ (hypothesisNode gs hyps).diagnostic_state.total_cost
            = gs.diagnostic_state.total_cost)
    ∧ (∀ catalog, (testChooserNode catalog gs).diagnostic_state
        = gs.diagnostic_state)
    ∧ (finalizeNode gs).diagnostic_state = gs.diagnostic_state := by
  have hnofire : ∀ tq, (evaluateTest tq gs.diagnostic_state).1 = true →
      tq.test.cost_usd ≤ gs.diagnostic_state.budget_remaining := by
    intro tq happ
    by_contra hgt
    push_neg at hgt
    unfold evaluateTest at happ
    rw [if_pos hgt] at happ
    simp at happ
  refine ⟨?_, ?_, ?_, ?_, ?_, ?_, ?_⟩
  · intro tq htq happ
    have hle := hnofire tq happ
    unfold stewardshipNode
    rw [htq]
    simp only [happ, if_true]
    refine ⟨trivial, trivial, trivial, trivial, trivial, trivial, ?_⟩
    linarith
  · intro tq htq hveto
    unfold stewardshipNode
    rw [htq]
    simp only [hveto, Bool.false_eq_true, if_false]
  · intro hnone
    unfold stewardshipNode
    rw [hnone]
  · intro tq htq hcost
    have h2 : (evaluateTest tq gs.diagnostic_state).1 = true ∨
        (evaluateTest tq gs.diagnostic_state).1 = false := by
      rcases (evaluateTest tq gs.diagnostic_state).1 with _ | _
      · exact Or.inr rfl
      · exact Or.inl rfl
    rcases h2 with happ | hveto
    · have hle := hnofire tq happ
      unfold stewardshipNode
      rw [htq]
      simp only [happ, if_true]
      constructor
      · linarith
      · linarith
    · unfold stewardshipNode
      rw [htq]
      simp only [hveto, Bool.false_eq_true, if_false]
      exact ⟨le_refl _, le_refl _⟩
  · intro hyps
    unfold hypothesisNode
    exact ⟨(updateConfidence_fields _).2.1, (updateConfidence_fields _).2.2.1⟩
  · intro catalog
    unfold testChooserNode
    cases h : selectNextTest catalog gs.diagnostic_state none
    · simp only [h]
    · simp only [h]
  · rfl

/-- C9 witness: a 25-dollar test with 1 bit of expected gain against a
500-dollar budget at confidence 0 is approved and leaves a budget of 475,
via `stewardship_node_budget`. -/
theorem stewardship_node_budget_witness :
    DiagnosticState.budget_remaining (GraphState.diagnostic_state (stewardshipNode
      { diagnostic_state := { patient_id := "P3", budget_remaining := 500 },
        current_test_request :=
          some { test := { test_id := "T1", name := "NS1", cost_usd := 25 },
                 rationale := "r", expected_information_gain := 1 } })) = 475 := by
  have happ : (evaluateTest
      { test := { test_id := "T1", name := "NS1", cost_usd := 25 },
        rationale := "r", expected_information_gain := 1 }
      { patient_id := "P3", budget_remaining := 500 }).1 = true := by
    unfold evaluateTest
    rw [if_neg (by norm_num), if_neg (by norm_num [MIN_INFO_GAIN])]
    rw [if_neg (by norm_num [MAX_COST_PER_BIT, HIGH_CONFIDENCE_THRESHOLD]),
      if_neg (by norm_num [HIGH_CONFIDENCE_THRESHOLD])]
    rfl
  have h := ((stewardship_node_budget
    { diagnostic_state := { patient_id := "P3", budget_remaining := 500 },
      current_test_request :=
        some { test := { test_id := "T1", name := "NS1", cost_usd := 25 },
               rationale := "r", expected_information_gain := 1 } }).1
    { test := { test_id := "T1", name := "NS1", cost_usd := 25 },
      rationale := "r", expected_information_gain := 1 } rfl happ).1
  rw [h]
  norm_num

/-- Looking a key up after the map-replace branch of a Python dict
assignment finds the new value, provided the key was present. -/
theorem lookup_map_replace (k v : String) :
    ∀ d : List (String × String),
      d.any (fun p => p.1 == k) = true →
      (d.map (fun p => if p.1 == k then (k, v) else p)).lookup k = some v := by
  intro d
  induction d with
  | nil =>
    intro h
    simp at h
  | cons p t ih =>
    intro h
    rcases p with ⟨a, b⟩
    by_cases hp : (a == k) = true
    · simp only [List.map_cons, if_pos hp]
      simp [List.lookup_cons]
    · simp only [List.any_cons, Bool.or_eq_true] at h
      have ht := h.resolve_left hp
      have hk : (k == a) = false := by
        rw [beq_eq_false_iff_ne]
        intro hkk
        exact hp (beq_iff_eq.mpr hkk.symm)
      simp only [List.map_cons, if_neg hp, List.lookup_cons, hk, cond_false]
      exact ih ht

/-- Looking a key up after the append branch of a Python dict assignment
finds the new value, provided the key was absent. -/
theorem lookup_append_new (k v : String) :
    ∀ d : List (String × String),
      d.any (fun p => p.1 == k) = false →
      (d ++ [(k, v)]).lookup k = some v := by
  intro d
  induction d with
  | nil =>
    intro _
    simp [List.lookup_cons]
  | cons p t ih =>
    intro h
    rcases p with ⟨a, b⟩
    simp only [List.any_cons, Bool.or_eq_false_iff] at h
    have hk : (k == a) = false := by
      rw [beq_eq_false_iff_ne]
      intro hkk
      exact absurd (beq_iff_eq.mpr hkk.symm) (by simp [h.1])
    simp only [List.cons_append, List.lookup_cons, hk, cond_false]
    exact ih h.2

/-- A Python dict assignment makes the assigned key map to the assigned
value. -/
theorem dictInsert_lookup (d : List (String × String)) (k v : String) :
    (dictInsert d k v).lookup k = some v := by
  unfold dictInsert
  split_ifs with h
  · exact lookup_map_replace k v d h
  · exact lookup_append_new k v d (Bool.eq_false_iff.mpr h)

/-- C10: `submit_test_result` raises exactly for an unknown session id; for
an existing session it records the result in `test_results` and appends the
test id to `completed_tests` unconditionally — in particular its
multiplicity in `completed_tests` always grows by one, so resubmission of
an already-completed id produces duplicate entries — while removal from
`pending_tests` alone is guarded by a membership check. -/
theorem submit_test_result_spec (svc : DiagnosticLoopService)
    (sid tid res : String) :
    (svc.sessions.lookup sid = none →
      submitTestResult svc sid tid res =
        Except.error ("Session " ++ sid ++ " not found"))
    ∧ (∀ sess, svc.sessions.lookup sid = some sess →
        ∃ svc1 st1, submitTestResult svc sid tid res = Except.ok (svc1, st1)
          ∧ st1.diagnostic_state.completed_tests
              = sess.state.diagnostic_state.completed_tests ++ [tid]
          ∧ st1.diagnostic_state.completed_tests.count tid
              = sess.state.diagnostic_state.completed_tests.count tid + 1
          ∧ st1.diagnostic_state.test_results.lookup tid = some res
          ∧ st1.diagnostic_state.pending_tests
              = (if tid ∈ sess.state.diagnostic_state.pending_tests
                 then sess.state.diagnostic_state.pending_tests.erase tid
                 else sess.state.diagnostic_state.pending_tests)) := by
  constructor
  · intro hmiss
    unfold submitTestResult
    rw [hmiss]
  · intro sess hsess
    unfold submitTestResult
    rw [hsess]
    refine ⟨_, _, rfl, rfl, ?_, ?_, rfl⟩
    · simp [List.count_append]
    · exact dictInsert_lookup _ tid res

/-- C10 witness: submitting a result for an already-completed test id in a
one-session service appends a duplicate entry, via
`submit_test_result_spec`. -/
theorem submit_test_result_spec_witness :
    ∃ svc1 st1,
      submitTestResult
        { sessions := [("s1",
            { state := { diagnostic_state :=
                { patient_id := "P1", pending_tests := ["T2"],
                  completed_tests := ["T1"] } } })] }
        "s1" "T1" "positive" = Except.ok (svc1, st1)
      ∧ st1.diagnostic_state.completed_tests = ["T1", "T1"]
      ∧ st1.diagnostic_state.test_results.lookup "T1" = some "positive" := by
  obtain ⟨svc1, st1, h1, h2, h3, h4, h5⟩ :=
    (submit_test_result_spec
      { sessions := [("s1",
          { state := { diagnostic_state :=
              { patient_id := "P1", pending_tests := ["T2"],
                completed_tests := ["T1"] } } })] }
      "s1" "T1" "positive").2
      { state := { diagnostic_state :=
          { patient_id := "P1", pending_tests := ["T2"],
            completed_tests := ["T1"] } } } rfl
  exact ⟨svc1, st1, h1, h2, h4⟩

/-- C1: `evaluate_test` applies the five veto rules of the spec in order
with first-match-wins semantics (each rule that fires, with all earlier
rules silent, produces exactly that rule's veto and rationale), approves
exactly when no rule fires, and in particular a test whose cost exceeds
the remaining budget is always vetoed regardless of its information
gain. -/
theorem evaluate_test_first_match_rules (tr : TestRequest) (s : DiagnosticState) :
    ((evaluateTest tr s).1 = true ↔
      ¬specRuleBudget tr s ∧ ¬specRuleMinGain tr ∧ ¬specRuleCostPerBit tr s ∧
      ¬specRuleHighConfidence tr s ∧ ¬specRuleRedundant tr s)
    ∧ (specRuleBudget tr s →
        evaluateTest tr s = (false, "Test exceeds remaining budget"))
    ∧ (¬specRuleBudget tr s → specRuleMinGain tr →
        evaluateTest tr s = (false, "Expected info gain below minimum threshold"))
    ∧ (¬specRuleBudget tr s → ¬specRuleMinGain tr → specRuleCostPerBit tr s →
        evaluateTest tr s = (false, "Cost per bit exceeds threshold"))
    ∧ (¬specRuleBudget tr s → ¬specRuleMinGain tr → ¬specRuleCostPerBit tr s →
        specRuleHighConfidence tr s →
        evaluateTest tr s = (false, "Confidence already high; test may be unnecessary"))
    ∧ (¬specRuleBudget tr s → ¬specRuleMinGain tr → ¬specRuleCostPerBit tr s →
        ¬specRuleHighConfidence tr s → specRuleRedundant tr s →
        evaluateTest tr s = (false, "Similar test already performed"))
    ∧ (¬specRuleBudget tr s → ¬specRuleMinGain tr → ¬specRuleCostPerBit tr s →
        ¬specRuleHighConfidence tr s → ¬specRuleRedundant tr s →
        evaluateTest tr s = (true, "Approved"))
    ∧ (specRuleBudget tr s → (evaluateTest tr s).1 = false) := by
  have hred : (s.completed_tests.any
      (fun c => testsRedundant tr.test.test_id c) = true) ↔ specRuleRedundant tr s := by
    unfold specRuleRedundant testsRedundant
    rw [List.any_eq_true]
    constructor
    · rintro ⟨c, hc, hb⟩
      rw [beq_iff_eq] at hb
      rw [hb]
      exact hc
    · intro h
      exact ⟨_, h, beq_iff_eq.mpr rfl⟩
  simp only [evaluateTest, specRuleBudget, specRuleMinGain, specRuleCostPerBit,
    specRuleHighConfidence, specCostPerBit, MIN_INFO_GAIN, MAX_COST_PER_BIT,
    HIGH_CONFIDENCE_THRESHOLD]
  split_ifs with h1 h2 h3 h4 h5 <;> simp_all

/-- C1 witness: a concrete request costing 100 against a remaining budget of
50 is vetoed by the budget rule, via `evaluate_test_first_match_rules`. -/
theorem evaluate_test_first_match_rules_witness :
    evaluateTest
      { test := { test_id := "T001", name := "CBC", cost_usd := 100 },
        rationale := "r", expected_information_gain := 1 }
      { patient_id := "P1", budget_remaining := 50 } =
      (false, "Test exceeds remaining budget") :=
  (evaluate_test_first_match_rules _ _).2.1 (by norm_num [specRuleBudget])

end DiagnoMed
